import Mathlib

/-!
Verification of the `ariba` summary module (`ariba/summary.py`).

The definitions below are a shallow embedding of the Python source: machine
floats become `Rat`, Python runtime exceptions become the `Except PyErr`
monad, Python lists become Lean lists, and the mixed string/int cells of the
output matrix become the `Cell` sum type.  Missing values (the literal `.`
in a report column) become `Option.none`.
-/

namespace AribaSummary

/-- Python runtime errors raised by the summary code: `IndexError` from
out-of-range list indexing, `TypeError` from comparing a string with a
number, `AssertionError` from a failing `assert`, and the module's own
`Error` exceptions (header mismatch in `_load_file`, and the two
precondition failures of `_write_distance_matrix`). -/
inductive PyErr where
  | indexError
  | typeError
  | assertionError
  | formatError (line : List Char)
  | tooFewSamples
  | noGenes
deriving DecidableEq, Repr

/-- The status flags queried through `flag.Flag.has` by
`Summary._to_summary_number`.  The flag object is decoded from an integer
bitmask by the external `flag` module; only the membership queries matter
here, so it is modelled as a record of booleans. -/
structure Flags where
  assembly_fail : Bool
  gene_assembled : Bool
  hit_both_strands : Bool
  complete_orf : Bool
  unique_contig : Bool
  gene_assembled_into_one_contig : Bool
  has_nonsynonymous_variants : Bool
deriving DecidableEq, Repr

/-- One parsed report row (`Summary._line2dict`).  Only the fields examined
by the summary logic are modelled; the remaining ~17 descriptive columns are
carried through the code unexamined.  `assembled` is `int` or the missing
sentinel `.` (here `none`); `pc_ident` is `float` or `.` (here `none`). -/
structure Record where
  gene : String
  flag : Flags
  assembled : Option Int
  pc_ident : Option Rat
deriving DecidableEq, Repr

/-- The loop of `Summary._pc_id_of_longest`: `longest` starts at `0` and
`identity` at Python `None` (the outer `none`); a record whose `assembled`
field is the string `.` makes Python's `>` comparison raise `TypeError`;
a record with `assembled > longest` updates both accumulators.  The inner
`Option Rat` is the value of `pc_ident`, itself possibly the missing
sentinel. -/
def pcIdOfLongestLoop : List Record → Int → Option (Option Rat) →
    Except PyErr (Option (Option Rat))
  | [], _, identity => Except.ok identity
  | data :: rest, longest, identity =>
    match data.assembled with
    | none => Except.error PyErr.typeError
    | some a =>
      if longest < a then pcIdOfLongestLoop rest a (some data.pc_ident)
      else pcIdOfLongestLoop rest longest identity

/-- `Summary._pc_id_of_longest`: run the loop, then `assert identity is not
None` and return the identity (which may still be the missing sentinel). -/
def pcIdOfLongest (l : List Record) : Except PyErr (Option Rat) :=
  match pcIdOfLongestLoop l 0 none with
  | Except.error e => Except.error e
  | Except.ok none => Except.error PyErr.assertionError
  | Except.ok (some identity) => Except.ok identity

/-- `Summary._to_summary_number`.  `l[0]` on an empty list raises
`IndexError`; the first `if` short-circuits, so `_pc_id_of_longest` is only
evaluated when the first two disjuncts are false; comparing the missing
sentinel `.` against the float `min_id` raises `TypeError`. -/
def toSummaryNumber (min_id : Rat) (l : List Record) : Except PyErr Nat :=
  match l.head? with
  | none => Except.error PyErr.indexError
  | some first =>
    let f := first.flag
    if f.assembly_fail || !f.gene_assembled then Except.ok 0
    else
      match pcIdOfLongest l with
      | Except.error e => Except.error e
      | Except.ok none => Except.error PyErr.typeError
      | Except.ok (some q) =>
        if q ≤ min_id then Except.ok 0
        else if f.hit_both_strands || !f.complete_orf then Except.ok 1
        else if f.unique_contig && f.gene_assembled_into_one_contig &&
            f.complete_orf then
          if f.has_nonsynonymous_variants then Except.ok 3 else Except.ok 4
        else Except.ok 2

/-- The fixed decision tree of claim C1, written from the claim's words:
0 on assembly failure / not gene-assembled / best identity at or below the
threshold; else 1 on hit-both-strands or no complete ORF; else 3 or 4 for a
unique-contig one-contig complete-ORF assembly according to
has-nonsynonymous-variants; else 2. -/
def specClassify (f : Flags) (best min_id : Rat) : Nat :=
  if f.assembly_fail || !f.gene_assembled || decide (best ≤ min_id) then 0
  else if f.hit_both_strands || !f.complete_orf then 1
  else if f.unique_contig && f.gene_assembled_into_one_contig &&
      f.complete_orf then
    if f.has_nonsynonymous_variants then 3 else 4
  else 2

/-- Claim C1: for every non-empty record list whose best identity is a
proper number, `_to_summary_number` returns exactly the code of the fixed
decision tree over the first record's flags, with the inclusive `<=`
threshold comparison. -/
theorem toSummaryNumber_eq_specClassify (min_id : Rat) (r : Record)
    (rest : List Record) (q : Rat)
    (hq : pcIdOfLongest (r :: rest) = Except.ok (some q)) :
    toSummaryNumber min_id (r :: rest) = Except.ok (specClassify r.flag q min_id) := by
  unfold toSummaryNumber specClassify
  simp only [List.head?_cons]
  by_cases h1 : (r.flag.assembly_fail || !r.flag.gene_assembled) = true
  · simp [h1]
  · rw [Bool.not_eq_true] at h1
    rw [hq]
    simp only [h1, Bool.false_eq_true, if_false, Bool.false_or]
    rw [Bool.or_eq_false_iff] at h1
    by_cases h2 : q ≤ min_id
    · simp [h1.1, h2]
    · have hd : decide (q ≤ min_id) = false := decide_eq_false h2
      simp only [h1.1, hd, Bool.false_eq_true, if_false,
        Bool.or_false, Bool.false_or, if_neg h2]
      split_ifs <;> simp_all

/-- Witness for C1: a clean single-record list with identity 99 against
threshold 90 classifies to code `specClassify … = 4`. -/
theorem toSummaryNumber_eq_specClassify_witness :
    toSummaryNumber 90
      [{ gene := "geneX",
         flag := { assembly_fail := false, gene_assembled := true,
                   hit_both_strands := false, complete_orf := true,
                   unique_contig := true, gene_assembled_into_one_contig := true,
                   has_nonsynonymous_variants := false },
         assembled := some 500, pc_ident := some 99 }] =
      Except.ok (specClassify
        { assembly_fail := false, gene_assembled := true,
          hit_both_strands := false, complete_orf := true,
          unique_contig := true, gene_assembled_into_one_contig := true,
          has_nonsynonymous_variants := false } 99 90) :=
  toSummaryNumber_eq_specClassify 90 _ [] 99 rfl

/-- An all-false flag set, used for concrete inputs where the flags are
irrelevant. -/
def flags0 : Flags :=
  { assembly_fail := false, gene_assembled := false, hit_both_strands := false,
    complete_orf := false, unique_contig := false,
    gene_assembled_into_one_contig := false,
    has_nonsynonymous_variants := false }

/-- If every record's assembled length is at most the running `longest`, the
loop never updates its accumulators and returns `identity` unchanged. -/
theorem pcIdOfLongestLoop_const (l : List Record) (longest : Int)
    (identity : Option (Option Rat))
    (hsome : ∀ r ∈ l, (Record.assembled r).isSome)
    (hle : ∀ r ∈ l, ∀ a : Int, r.assembled = some a → a ≤ longest) :
    pcIdOfLongestLoop l longest identity = Except.ok identity := by
  induction l with
  | nil => rfl
  | cons x rest ih =>
    have hx := hsome x (by simp)
    obtain ⟨a, ha⟩ := Option.isSome_iff_exists.mp hx
    have hax : a ≤ longest := hle x (by simp) a ha
    unfold pcIdOfLongestLoop
    rw [ha]
    dsimp only
    rw [if_neg (by omega)]
    exact ih (fun r hr => hsome r (by simp [hr]))
      (fun r hr a' ha' => hle r (by simp [hr]) a' ha')

/-- When every record has an integer assembled length, the loop never raises
and its result is a proper value. -/
theorem pcIdOfLongestLoop_ok (l : List Record) (longest : Int)
    (identity : Option (Option Rat))
    (hsome : ∀ r ∈ l, (Record.assembled r).isSome) :
    ∃ v, pcIdOfLongestLoop l longest identity = Except.ok v := by
  induction l generalizing longest identity with
  | nil => exact ⟨identity, rfl⟩
  | cons x rest ih =>
    obtain ⟨a, ha⟩ := Option.isSome_iff_exists.mp (hsome x (by simp))
    have hrest : ∀ r ∈ rest, (Record.assembled r).isSome :=
      fun r hr => hsome r (by simp [hr])
    unfold pcIdOfLongestLoop
    rw [ha]
    dsimp only
    by_cases h : longest < a
    · rw [if_pos h]; exact ih a (some x.pc_ident) hrest
    · rw [if_neg h]; exact ih longest identity hrest

/-- The loop answers Python `None` exactly when it started from `None` and no
record ever beat the running `longest`. -/
theorem pcIdOfLongestLoop_none (l : List Record) (longest : Int)
    (identity : Option (Option Rat))
    (hsome : ∀ r ∈ l, (Record.assembled r).isSome) :
    pcIdOfLongestLoop l longest identity = Except.ok none ↔
      (identity = none ∧ ∀ r ∈ l, ∀ a : Int, r.assembled = some a → a ≤ longest) := by
  induction l generalizing longest identity with
  | nil =>
    simp only [pcIdOfLongestLoop]
    constructor
    · intro h
      exact ⟨by injection h, by intro r hr; simp at hr⟩
    · intro h; rw [h.1]
  | cons x rest ih =>
    obtain ⟨a, ha⟩ := Option.isSome_iff_exists.mp (hsome x (by simp))
    have hrest : ∀ r ∈ rest, (Record.assembled r).isSome :=
      fun r hr => hsome r (by simp [hr])
    unfold pcIdOfLongestLoop
    rw [ha]
    dsimp only
    by_cases h : longest < a
    · rw [if_pos h, ih a (some x.pc_ident) hrest]
      constructor
      · rintro ⟨h1, -⟩; exact absurd h1 (by simp)
      · rintro ⟨-, h2⟩
        have := h2 x (by simp) a ha
        omega
    · rw [if_neg h, ih longest identity hrest]
      constructor
      · rintro ⟨h1, h2⟩
        refine ⟨h1, ?_⟩
        intro r hr a' ha'
        rcases List.mem_cons.mp hr with rfl | hr'
        · rw [ha'] at ha; injection ha with ha; omega
        · exact h2 r hr' a' ha'
      · rintro ⟨h1, h2⟩
        exact ⟨h1, fun r hr a' ha' => h2 r (by simp [hr]) a' ha'⟩

/-- Counterexample to claim C2 as stated.  A missing `pc_ident` is the
string sentinel `.`, not Python `None`, so a lone record with a positive
assembled length and missing `pc_ident` IS selected and returned (first
conjunct) — the assertion does not fire even though no record carries a
percent-identity value; conversely, a record that does carry a
percent-identity value but has assembled length `0` never beats the initial
`longest = 0`, so the assertion fires (second conjunct). -/
theorem pcIdOfLongest_missing_counterexample :
    pcIdOfLongest
        [{ gene := "g", flag := flags0, assembled := some 500, pc_ident := none }] =
      Except.ok none ∧
    pcIdOfLongest
        [{ gene := "g", flag := flags0, assembled := some 0, pc_ident := some 95 }] =
      Except.error PyErr.assertionError :=
  ⟨rfl, rfl⟩

/-- Claim C2 amended: for a record list in which every `assembled` field is
an integer, the assertion in `_pc_id_of_longest` fires exactly when no
record's assembled length exceeds the initial `longest = 0` — records with a
missing `pc_ident` are not excluded from selection (the sentinel itself is
selected and returned). -/
theorem pcIdOfLongest_assert_iff (l : List Record)
    (hsome : ∀ r ∈ l, (Record.assembled r).isSome) :
    pcIdOfLongest l = Except.error PyErr.assertionError ↔
      ∀ r ∈ l, ∀ a : Int, r.assembled = some a → a ≤ 0 := by
  obtain ⟨v, hv⟩ := pcIdOfLongestLoop_ok l 0 none hsome
  unfold pcIdOfLongest
  rw [hv]
  cases v with
  | none =>
    simp only [true_iff]
    exact ((pcIdOfLongestLoop_none l 0 none hsome).mp hv).2
  | some q =>
    simp only [Except.ok.injEq, reduceCtorEq, false_iff]
    intro hle
    have : pcIdOfLongestLoop l 0 none = Except.ok none :=
      (pcIdOfLongestLoop_none l 0 none hsome).mpr ⟨rfl, hle⟩
    rw [hv] at this
    injection this with h
    exact absurd h (by simp)

/-- Witness for the amended C2: a lone record with assembled length `0` and
a present percent identity still trips the assertion. -/
theorem pcIdOfLongest_assert_iff_witness :
    pcIdOfLongest
        [{ gene := "g2", flag := flags0, assembled := some 0, pc_ident := some 92 }] =
      Except.error PyErr.assertionError :=
  (pcIdOfLongest_assert_iff _ (by decide)).mpr (by decide)

/-- Counterexample to claim C8 as stated: this single-record list has an
integer assembled length (namely `0`), so the claim says selection returns
the record's `pc_ident` (97); instead the `assert` fires, because `longest`
starts at `0` and the strict `>` never selects any record. -/
theorem pcIdOfLongest_zero_counterexample :
    pcIdOfLongest
        [{ gene := "g", flag := flags0, assembled := some 0, pc_ident := some 97 }] =
      Except.error PyErr.assertionError :=
  rfl

/-- Generalised loop form of the first-wins selection: if `m` bounds every
assembled length, strictly exceeds the running `longest`, and `r` is the
first record attaining `m`, the loop returns `r`'s percent identity. -/
theorem pcIdOfLongestLoop_firstMax (l : List Record) (longest : Int)
    (identity : Option (Option Rat)) (m : Int) (r : Record)
    (hsome : ∀ x ∈ l, (Record.assembled x).isSome)
    (hub : ∀ x ∈ l, ∀ a : Int, x.assembled = some a → a ≤ m)
    (hlt : longest < m)
    (hfind : l.find? (fun x => x.assembled == some m) = some r) :
    pcIdOfLongestLoop l longest identity = Except.ok (some r.pc_ident) := by
  induction l generalizing longest identity with
  | nil => simp [List.find?] at hfind
  | cons x rest ih =>
    obtain ⟨a, ha⟩ := Option.isSome_iff_exists.mp (hsome x (by simp))
    have hrest : ∀ y ∈ rest, (Record.assembled y).isSome :=
      fun y hy => hsome y (by simp [hy])
    have hubrest : ∀ y ∈ rest, ∀ a' : Int, y.assembled = some a' → a' ≤ m :=
      fun y hy a' ha' => hub y (by simp [hy]) a' ha'
    rw [List.find?_cons] at hfind
    unfold pcIdOfLongestLoop
    rw [ha]
    dsimp only
    by_cases hxm : x.assembled = some m
    · rw [hxm] at ha
      injection ha with ha'
      subst ha'
      rw [if_pos hlt]
      have : (x.assembled == some m) = true := by rw [hxm]; simp
      simp only [this] at hfind
      injection hfind with hfind
      subst hfind
      exact pcIdOfLongestLoop_const rest m _ hrest hubrest
    · have : (x.assembled == some m) = false := by
        simp only [beq_eq_false_iff_ne, ne_eq]; exact hxm
      simp only [this] at hfind
      have ham : a < m := by
        have h1 : a ≤ m := hub x (by simp) a ha
        rcases lt_or_eq_of_le h1 with h | h
        · exact h
        · exact absurd (by rw [ha, h]) hxm
      by_cases h : longest < a
      · rw [if_pos h]
        exact ih a (some x.pc_ident) hrest hubrest ham hfind
      · rw [if_neg h]
        exact ih longest identity hrest hubrest hlt hfind

/-- Claim C8 amended: when every record's assembled length is an integer and
the greatest assembled length `m` is strictly positive, `_pc_id_of_longest`
returns the `pc_ident` of the FIRST record attaining `m` (first wins on
ties). -/
theorem pcIdOfLongest_firstMax (l : List Record) (m : Int) (r : Record)
    (hsome : ∀ x ∈ l, (Record.assembled x).isSome)
    (hub : ∀ x ∈ l, ∀ a : Int, x.assembled = some a → a ≤ m)
    (hpos : 0 < m)
    (hfind : l.find? (fun x => x.assembled == some m) = some r) :
    pcIdOfLongest l = Except.ok r.pc_ident := by
  unfold pcIdOfLongest
  rw [pcIdOfLongestLoop_firstMax l 0 none m r hsome hub hpos hfind]

/-- Witness for the amended C8: among lengths `5, 7, 7` the first record of
length `7` wins and its identity `99` is returned. -/
theorem pcIdOfLongest_firstMax_witness :
    pcIdOfLongest
        [{ gene := "g", flag := flags0, assembled := some 5, pc_ident := some 90 },
         { gene := "g", flag := flags0, assembled := some 7, pc_ident := some 99 },
         { gene := "g", flag := flags0, assembled := some 7, pc_ident := some 88 }] =
      Except.ok (some 99) :=
  pcIdOfLongest_firstMax _ 7
    { gene := "g", flag := flags0, assembled := some 7, pc_ident := some 99 }
    (by decide) (by decide) (by decide) (by decide)

/-- One cell of `Summary.rows_out`: Python mixes the string cells (the
`filename` label, the gene names, the sample identifiers) with the integer
summary codes in the same row lists. -/
inductive Cell where
  | str : String → Cell
  | int : Nat → Cell
deriving DecidableEq, Repr

/-- `Summary._distance_score_between_values`: score 1 iff the values differ
and one of them is `0` (a Python string never equals the integer `0`). -/
def distanceScoreBetweenValues (v1 v2 : Cell) : Nat :=
  if v1 ≠ v2 ∧ (v1 = Cell.int 0 ∨ v2 = Cell.int 0) then 1 else 0

/-- `Summary._distance_score_between_lists`: assert equal lengths, then sum
the value scores over indices `1, …, len-1` (index 0 holds the sample
identifier and is skipped). -/
def distanceScoreBetweenLists (s1 s2 : List Cell) : Except PyErr Nat :=
  if s1.length = s2.length then
    Except.ok (List.sum
      (List.zipWith distanceScoreBetweenValues (s1.drop 1) (s2.drop 1)))
  else Except.error PyErr.assertionError

/-- A value pair scores 1 exactly when precisely one of the two cells is the
integer `0`. -/
theorem distanceScoreBetweenValues_eq_xor (v1 v2 : Cell) :
    distanceScoreBetweenValues v1 v2 =
      if xor (v1 = Cell.int 0) (v2 = Cell.int 0) then 1 else 0 := by
  unfold distanceScoreBetweenValues
  by_cases h1 : v1 = Cell.int 0 <;> by_cases h2 : v2 = Cell.int 0
  · rw [h1, h2]; simp
  · rw [if_pos ⟨by rw [h1]; exact fun hh => h2 hh.symm, Or.inl h1⟩,
      if_pos (by simp [h1, h2])]
  · rw [if_pos ⟨by rw [h2]; exact h1, Or.inr h2⟩, if_pos (by simp [h1, h2])]
  · rw [if_neg (fun hc => hc.2.elim h1 h2), if_neg (by simp [h1, h2])]

/-- The value score is symmetric. -/
theorem distanceScoreBetweenValues_comm (v1 v2 : Cell) :
    distanceScoreBetweenValues v1 v2 = distanceScoreBetweenValues v2 v1 := by
  unfold distanceScoreBetweenValues
  exact if_congr ⟨fun h => ⟨h.1.symm, h.2.symm⟩, fun h => ⟨h.1.symm, h.2.symm⟩⟩
    rfl rfl

/-- A self-pair scores 0. -/
theorem distanceScoreBetweenValues_self (v : Cell) :
    distanceScoreBetweenValues v v = 0 := by
  simp [distanceScoreBetweenValues]

/-- Summed value scores count the zero-versus-nonzero disagreements. -/
theorem sum_zipWith_distance (l1 l2 : List Cell) :
    List.sum (List.zipWith distanceScoreBetweenValues l1 l2) =
      List.countP (fun p => xor (decide (p.1 = Cell.int 0)) (decide (p.2 = Cell.int 0)))
        (l1.zip l2) := by
  induction l1 generalizing l2 with
  | nil => simp
  | cons x t ih =>
    cases l2 with
    | nil => simp
    | cons y t2 =>
      simp only [List.zipWith_cons_cons, List.sum_cons, List.zip_cons_cons,
        List.countP_cons, ih t2, distanceScoreBetweenValues_eq_xor]
      by_cases h : xor (x = Cell.int 0) (y = Cell.int 0) <;> simp [h] <;> omega

/-- Claim C5: for equal-length rows the pairwise score equals the count of
gene positions (index ≥ 1) where exactly one of the two cells is 0 — equal
cells and nonzero-versus-nonzero disagreements contribute nothing; the score
is symmetric; and a row's distance to itself is 0. -/
theorem distanceScoreBetweenLists_spec (s1 s2 : List Cell)
    (hlen : s1.length = s2.length) :
    distanceScoreBetweenLists s1 s2 =
      Except.ok (List.countP
        (fun p => xor (decide (p.1 = Cell.int 0)) (decide (p.2 = Cell.int 0)))
        ((s1.drop 1).zip (s2.drop 1))) ∧
    distanceScoreBetweenLists s1 s2 = distanceScoreBetweenLists s2 s1 ∧
    distanceScoreBetweenLists s1 s1 = Except.ok 0 := by
  refine ⟨?_, ?_, ?_⟩
  · unfold distanceScoreBetweenLists
    rw [if_pos hlen, sum_zipWith_distance]
  · unfold distanceScoreBetweenLists
    rw [if_pos hlen, if_pos hlen.symm,
      List.zipWith_comm_of_comm distanceScoreBetweenValues
        distanceScoreBetweenValues_comm]
  · unfold distanceScoreBetweenLists
    rw [if_pos rfl]
    simp [List.zipWith_same, distanceScoreBetweenValues_self]

/-- Witness for C5 at concrete rows: identifiers differ, positions compare
`1` with `0` (counts), `2` with `3` (ignored) and `0` with `0` (ignored). -/
theorem distanceScoreBetweenLists_spec_witness :
    distanceScoreBetweenLists
        [Cell.str "A", Cell.int 1, Cell.int 2, Cell.int 0]
        [Cell.str "B", Cell.int 0, Cell.int 3, Cell.int 0] =
      Except.ok (List.countP
        (fun p => xor (decide (p.1 = Cell.int 0)) (decide (p.2 = Cell.int 0)))
        (([Cell.str "A", Cell.int 1, Cell.int 2, Cell.int 0].drop 1).zip
          ([Cell.str "B", Cell.int 0, Cell.int 3, Cell.int 0].drop 1))) :=
  (distanceScoreBetweenLists_spec
    [Cell.str "A", Cell.int 1, Cell.int 2, Cell.int 0]
    [Cell.str "B", Cell.int 0, Cell.int 3, Cell.int 0] rfl).1

/-- Structured view of `Summary.rows_out`: gene-name columns plus data rows
(sample identifier and ordinal summary cells). -/
structure SMatrix where
  genes : List String
  rows : List (String × List Nat)
deriving DecidableEq, Repr

/-- The header row `['filename'] + all_genes` built by
`_gather_output_rows`. -/
def headerRow (m : SMatrix) : List Cell :=
  Cell.str "filename" :: m.genes.map Cell.str

/-- A data row `[filename] + summary numbers`. -/
def dataRow (r : String × List Nat) : List Cell :=
  Cell.str r.1 :: r.2.map Cell.int

/-- The raw `rows_out` list corresponding to a structured matrix. -/
def SMatrix.toRows (m : SMatrix) : List (List Cell) :=
  headerRow m :: m.rows.map dataRow

/-- Well-formedness of a summary matrix: every data row has exactly one cell
per gene column (the invariant `_gather_output_rows` establishes). -/
def SMatrix.WF (m : SMatrix) : Prop :=
  ∀ r ∈ m.rows, r.2.length = m.genes.length

instance (m : SMatrix) : Decidable m.WF := by
  unfold SMatrix.WF; infer_instance

/-- Content of the file written by `_write_distance_matrix`: a header line of
names and one line per sample, each holding a name and its scores. -/
structure DistOut where
  header : List Cell
  body : List (Cell × List Nat)
deriving DecidableEq, Repr

/-- `Summary._write_distance_matrix`.  Raises when fewer than 3 rows are
present (header plus fewer than two samples) or the header row has fewer
than 2 entries (no gene columns); otherwise takes `sample_names = [x[0] for
x in rows_out]` (raising `IndexError` on an empty row), prints
`sample_names[1:]`, and for each `i in range(1, len(rows_out))` prints
`rows_out[i][0]` and the scores against `rows_out[j]` for
`j in range(2, len(rows_out))`.  (The `headD` defaults are never exercised:
`rows_out[i][0]` is only reached after `sample_names` succeeded, which
already indexed every row.) -/
def writeDistanceMatrix (rows : List (List Cell)) : Except PyErr DistOut :=
  if rows.length < 3 then Except.error PyErr.tooFewSamples
  else if (rows.headD []).length < 2 then Except.error PyErr.noGenes
  else
    match rows.mapM (fun x =>
      match x.head? with
      | some c => Except.ok c
      | none => Except.error PyErr.indexError) with
    | Except.error e => Except.error e
    | Except.ok names =>
      match (List.range' 1 (rows.length - 1)).mapM (fun i =>
        match (List.range' 2 (rows.length - 2)).mapM (fun j =>
          distanceScoreBetweenLists (rows.getD i []) (rows.getD j [])) with
        | Except.error e => Except.error e
        | Except.ok scores =>
          Except.ok ((rows.getD i []).headD (Cell.int 0), scores)) with
      | Except.error e => Except.error e
      | Except.ok body => Except.ok { header := names.drop 1, body := body }

/-- `mapM` into `Except` succeeds pointwise. -/
theorem mapM_ok {α β : Type} (f : α → Except PyErr β) (g : α → β)
    (l : List α) (h : ∀ a ∈ l, f a = Except.ok (g a)) :
    l.mapM f = Except.ok (l.map g) := by
  induction l with
  | nil => rfl
  | cons x t ih =>
    rw [List.mapM_cons, h x (by simp), ih (fun a ha => h a (by simp [ha]))]
    rfl

/-- Shifting the start of an index range past a cons cell. -/
theorem map_getD_cons_range' {α : Type} (d x : α) (l : List α) :
    ∀ (n s : Nat),
      (List.range' (s + 1) n).map (fun i => (x :: l).getD i d) =
        (List.range' s n).map (fun i => l.getD i d) := by
  intro n
  induction n with
  | zero => intro s; rfl
  | succ k ih =>
    intro s
    rw [List.range'_succ, List.range'_succ, List.map_cons, List.map_cons,
      ih (s + 1)]
    rfl

/-- Indexing a list over `range' s (len - s)` recovers `drop s`. -/
theorem map_getD_range'_drop {α : Type} (d : α) :
    ∀ (l : List α) (s : Nat),
      (List.range' s (l.length - s)).map (fun i => l.getD i d) = l.drop s := by
  intro l
  induction l with
  | nil => intro s; simp
  | cons a t ih =>
    intro s
    cases s with
    | zero =>
      rw [List.drop_zero, List.length_cons, Nat.sub_zero, List.range'_succ,
        List.map_cons, List.getD_cons_zero, map_getD_cons_range']
      rw [show t.length = t.length - 0 from rfl, ih 0, List.drop_zero]
    | succ s =>
      rw [List.length_cons, Nat.succ_sub_succ, map_getD_cons_range', ih s,
        List.drop_succ_cons]

/-- Every row of a well-formed matrix has `genes.length + 1` cells. -/
theorem toRows_row_length (m : SMatrix) (hwf : m.WF) :
    ∀ x ∈ m.toRows, x.length = m.genes.length + 1 := by
  intro x hx
  rcases List.mem_cons.mp hx with rfl | hx'
  · simp [headerRow]
  · obtain ⟨r, hr, rfl⟩ := List.mem_map.mp hx'
    simp [dataRow, hwf r hr]

/-- Characterisation of `_write_distance_matrix` on a well-formed matrix
with at least two samples and at least one gene: the header line carries the
names of ALL samples in row order, and the body has one line per sample `i`
holding its name and its scores against every sample `j ≥ 2`. -/
theorem writeDistanceMatrix_characterization (m : SMatrix) (hwf : m.WF)
    (h2 : 2 ≤ m.rows.length) (h1 : 1 ≤ m.genes.length) :
    writeDistanceMatrix m.toRows = Except.ok
      { header := m.rows.map (fun r => Cell.str r.1),
        body := m.rows.map (fun r =>
          (Cell.str r.1, (m.rows.drop 1).map (fun r2 =>
            List.sum (List.zipWith distanceScoreBetweenValues
              (r.2.map Cell.int) (r2.2.map Cell.int))))) } := by
  have hlen : m.toRows.length = m.rows.length + 1 := by
    simp [SMatrix.toRows]
  have hhead : m.toRows.headD [] = headerRow m := rfl
  unfold writeDistanceMatrix
  rw [if_neg (by omega), hhead, if_neg (by simp [headerRow]; omega)]
  have hnames : m.toRows.mapM (fun x =>
      match x.head? with
      | some c => Except.ok c
      | none => Except.error PyErr.indexError) =
      Except.ok (m.toRows.map (fun x => x.headD (Cell.int 0))) := by
    apply mapM_ok
    intro x hx
    rcases List.mem_cons.mp hx with rfl | hx'
    · rfl
    · obtain ⟨r, hr, rfl⟩ := List.mem_map.mp hx'
      rfl
  rw [hnames]
  have hrowlen := toRows_row_length m hwf
  have hgetlen : ∀ i, i < m.toRows.length →
      (m.toRows.getD i []).length = m.genes.length + 1 := by
    intro i hi
    have hmem : m.toRows.getD i [] ∈ m.toRows := by
      rw [List.getD_eq_getElem _ _ hi]
      exact List.getElem_mem hi
    exact hrowlen _ hmem
  have hbound : ∀ s n i, i ∈ List.range' s n → i < s + n := by
    intro s n i hi
    obtain ⟨k, hk, rfl⟩ := List.mem_range'.mp hi
    omega
  have hbody : (List.range' 1 (m.toRows.length - 1)).mapM (fun i =>
      match (List.range' 2 (m.toRows.length - 2)).mapM (fun j =>
        distanceScoreBetweenLists (m.toRows.getD i []) (m.toRows.getD j [])) with
      | Except.error e => Except.error e
      | Except.ok scores =>
        Except.ok ((m.toRows.getD i []).headD (Cell.int 0), scores)) =
      Except.ok ((List.range' 1 (m.toRows.length - 1)).map (fun i =>
        ((m.toRows.getD i []).headD (Cell.int 0),
          (List.range' 2 (m.toRows.length - 2)).map (fun j =>
            List.sum (List.zipWith distanceScoreBetweenValues
              ((m.toRows.getD i []).drop 1) ((m.toRows.getD j []).drop 1)))))) := by
    apply mapM_ok
    intro i hi
    have hi' : i < m.toRows.length := by
      have := hbound _ _ _ hi
      omega
    have hinner : (List.range' 2 (m.toRows.length - 2)).mapM (fun j =>
        distanceScoreBetweenLists (m.toRows.getD i []) (m.toRows.getD j [])) =
        Except.ok ((List.range' 2 (m.toRows.length - 2)).map (fun j =>
          List.sum (List.zipWith distanceScoreBetweenValues
            ((m.toRows.getD i []).drop 1) ((m.toRows.getD j []).drop 1)))) := by
      apply mapM_ok
      intro j hj
      have hj' : j < m.toRows.length := by
        have := hbound _ _ _ hj
        omega
      unfold distanceScoreBetweenLists
      rw [if_pos (by rw [hgetlen i hi', hgetlen j hj'])]
    rw [hinner]
  rw [hbody]
  refine congrArg Except.ok ?_
  refine congrArg₂ DistOut.mk ?_ ?_
  · simp [SMatrix.toRows, headerRow, dataRow, List.map_map, Function.comp]
  · calc
      (List.range' 1 (m.toRows.length - 1)).map (fun i =>
          ((m.toRows.getD i []).headD (Cell.int 0),
            (List.range' 2 (m.toRows.length - 2)).map (fun j =>
              List.sum (List.zipWith distanceScoreBetweenValues
                ((m.toRows.getD i []).drop 1) ((m.toRows.getD j []).drop 1)))))
        = ((List.range' 1 (m.toRows.length - 1)).map
            (fun i => m.toRows.getD i [])).map (fun x =>
              (x.headD (Cell.int 0),
                (List.range' 2 (m.toRows.length - 2)).map (fun j =>
                  List.sum (List.zipWith distanceScoreBetweenValues
                    (x.drop 1) ((m.toRows.getD j []).drop 1))))) := by
          rw [List.map_map]
          rfl
      _ = (m.toRows.drop 1).map (fun x =>
              (x.headD (Cell.int 0),
                (List.range' 2 (m.toRows.length - 2)).map (fun j =>
                  List.sum (List.zipWith distanceScoreBetweenValues
                    (x.drop 1) ((m.toRows.getD j []).drop 1))))) := by
          rw [map_getD_range'_drop]
      _ = (m.rows.map dataRow).map (fun x =>
              (x.headD (Cell.int 0),
                (List.range' 2 (m.toRows.length - 2)).map (fun j =>
                  List.sum (List.zipWith distanceScoreBetweenValues
                    (x.drop 1) ((m.toRows.getD j []).drop 1))))) := rfl
      _ = m.rows.map (fun r =>
              (Cell.str r.1, (m.rows.drop 1).map (fun r2 =>
                List.sum (List.zipWith distanceScoreBetweenValues
                  (r.2.map Cell.int) (r2.2.map Cell.int))))) := by
          rw [List.map_map]
          apply List.map_congr_left
          intro r hr
          refine congrArg₂ Prod.mk rfl ?_
          calc
            (List.range' 2 (m.toRows.length - 2)).map (fun j =>
                List.sum (List.zipWith distanceScoreBetweenValues
                  ((dataRow r).drop 1) ((m.toRows.getD j []).drop 1)))
              = ((List.range' 2 (m.toRows.length - 2)).map
                  (fun j => m.toRows.getD j [])).map (fun y =>
                    List.sum (List.zipWith distanceScoreBetweenValues
                      ((dataRow r).drop 1) (y.drop 1))) := by
                rw [List.map_map]
                rfl
            _ = (m.toRows.drop 2).map (fun y =>
                    List.sum (List.zipWith distanceScoreBetweenValues
                      ((dataRow r).drop 1) (y.drop 1))) := by
                rw [map_getD_range'_drop]
            _ = ((m.rows.drop 1).map dataRow).map (fun y =>
                    List.sum (List.zipWith distanceScoreBetweenValues
                      ((dataRow r).drop 1) (y.drop 1))) := by
                rw [show m.toRows.drop 2 = (m.rows.drop 1).map dataRow from
                  (List.map_drop dataRow m.rows 1).symm]
            _ = (m.rows.drop 1).map (fun r2 =>
                    List.sum (List.zipWith distanceScoreBetweenValues
                      (r.2.map Cell.int) (r2.2.map Cell.int))) := by
                rw [List.map_map]
                rfl

/-- Claim C6: on a well-formed matrix, `_write_distance_matrix` succeeds
exactly when at least two sample data rows and at least one gene column are
present; in particular it raises with fewer than two data rows or zero gene
columns. -/
theorem writeDistanceMatrix_ok_iff (m : SMatrix) (hwf : m.WF) :
    (∃ out, writeDistanceMatrix m.toRows = Except.ok out) ↔
      2 ≤ m.rows.length ∧ 1 ≤ m.genes.length := by
  constructor
  · rintro ⟨out, hout⟩
    by_cases hr : 2 ≤ m.rows.length
    · by_cases hg : 1 ≤ m.genes.length
      · exact ⟨hr, hg⟩
      · exfalso
        unfold writeDistanceMatrix at hout
        rw [if_neg (by simp only [SMatrix.toRows, List.length_cons,
          List.length_map]; omega)] at hout
        rw [if_pos (by simp only [SMatrix.toRows, List.headD_cons, headerRow,
          List.length_cons, List.length_map]; omega)] at hout
        exact absurd hout (by simp)
    · exfalso
      unfold writeDistanceMatrix at hout
      rw [if_pos (by simp only [SMatrix.toRows, List.length_cons,
        List.length_map]; omega)] at hout
      exact absurd hout (by simp)
  · rintro ⟨hr, hg⟩
    exact ⟨_, writeDistanceMatrix_characterization m hwf hr hg⟩

/-- Witness for C6: two samples and one gene column succeed. -/
theorem writeDistanceMatrix_ok_iff_witness :
    ∃ out, writeDistanceMatrix
      (SMatrix.toRows { genes := ["geneA"], rows := [("s1", [1]), ("s2", [0])] }) =
      Except.ok out :=
  (writeDistanceMatrix_ok_iff
    { genes := ["geneA"], rows := [("s1", [1]), ("s2", [0])] }
    (by decide)).mpr (by decide)

/-- Counterexample to claim C9 as stated.  `sample_names[1:]` drops the
`'filename'` header label, not the first sample: for the two samples `A`,
`B` the header line of the distance-matrix file holds BOTH identifiers
(`[A, B]`), not the claim's all-but-the-first list (`[B]`). -/
theorem writeDistanceMatrix_header_counterexample :
    writeDistanceMatrix
        (SMatrix.toRows { genes := ["g"], rows := [("A", [1]), ("B", [0])] }) =
      Except.ok { header := [Cell.str "A", Cell.str "B"],
                  body := [(Cell.str "A", [1]), (Cell.str "B", [0])] } ∧
    ([Cell.str "A", Cell.str "B"] : List Cell) ≠ [Cell.str "B"] :=
  ⟨rfl, by decide⟩

/-- Claim C9 amended: the header line of the distance-matrix file lists ALL
sample identifiers in row order (only the `'filename'` label is dropped),
and each body line holds a sample identifier followed by its scores against
every sample with index ≥ 2, in row order. -/
theorem writeDistanceMatrix_shape (m : SMatrix) (hwf : m.WF)
    (h2 : 2 ≤ m.rows.length) (h1 : 1 ≤ m.genes.length) :
    writeDistanceMatrix m.toRows = Except.ok
      { header := m.rows.map (fun r => Cell.str r.1),
        body := m.rows.map (fun r =>
          (Cell.str r.1, (m.rows.drop 1).map (fun r2 =>
            List.sum (List.zipWith distanceScoreBetweenValues
              (r.2.map Cell.int) (r2.2.map Cell.int))))) } :=
  writeDistanceMatrix_characterization m hwf h2 h1

/-- Witness for the amended C9: two samples, one gene. -/
theorem writeDistanceMatrix_shape_witness :
    writeDistanceMatrix
        (SMatrix.toRows { genes := ["g1"], rows := [("sampleA", [4]), ("sampleB", [2])] }) =
      Except.ok { header := [Cell.str "sampleA", Cell.str "sampleB"],
                  body := [(Cell.str "sampleA", [0]), (Cell.str "sampleB", [0])] } :=
  writeDistanceMatrix_shape
    { genes := ["g1"], rows := [("sampleA", [4]), ("sampleB", [2])] }
    (by decide) (by decide) (by decide)

/-- The row filter of `_filter_output_rows`: keep `x` iff
`x[1:] != [0]*(len(x)-1)` (Python list comparison; note the header row is
subjected to the same test, and a row with no cells past index 0 compares
equal to the empty zero list and is removed). -/
def rowKeep (x : List Cell) : Bool :=
  decide (x.drop 1 ≠ List.replicate (x.length - 1) (Cell.int 0))

/-- Python `sum([x[i] for x in rows])` over summary rows: an out-of-range
index raises `IndexError`, a string cell raises `TypeError` when added. -/
def pyColSum (rows : List (List Cell)) (i : Nat) : Except PyErr Nat :=
  match rows.mapM (fun x =>
    match x.get? i with
    | none => Except.error PyErr.indexError
    | some (Cell.str _) => Except.error PyErr.typeError
    | some (Cell.int n) => Except.ok n) with
  | Except.error e => Except.error e
  | Except.ok vals => Except.ok vals.sum

/-- `Summary._filter_output_rows` (with `filter_output` enabled): first drop
the rows failing `rowKeep`, then — indexing `rows[0]`, which raises
`IndexError` when every row was dropped — collect into `to_remove` the
column indices `i ∈ range(1, len(rows[0]))` whose sum over the remaining
data rows is zero, and rebuild every row keeping the cells whose index is
not in `to_remove`. -/
def filterOutputRows (rows0 : List (List Cell)) : Except PyErr (List (List Cell)) :=
  match rows0.filter rowKeep with
  | [] => Except.error PyErr.indexError
  | r0 :: rest =>
    match (List.range' 1 (r0.length - 1)).mapM (fun i =>
      match pyColSum rest i with
      | Except.error e => Except.error e
      | Except.ok s => Except.ok (i, s)) with
    | Except.error e => Except.error e
    | Except.ok colsums =>
      Except.ok ((r0 :: rest).map (fun x =>
        (x.enum.filter (fun q =>
          !(((colsums.filter (fun c => c.2 == 0)).map Prod.fst).contains q.1))).map
          Prod.snd))

/-- The filtering pass as claim C3's spec fixes it: the row filter (drop
all-zero data rows) and the column filter (drop gene columns that are
all-zero across the data rows) are both computed against the ORIGINAL
unfiltered data rows and then both applied; the header row and the index-0
identifier column are kept unconditionally. -/
def specFilter (rows : List (List Cell)) : List (List Cell) :=
  match rows with
  | [] => []
  | header :: data =>
    (header :: data.filter (fun x =>
        !(x.drop 1).all (fun c => c == Cell.int 0))).map (fun x =>
      (x.enum.filter (fun q =>
        q.1 == 0 || data.any (fun y =>
          y.getD q.1 (Cell.int 0) != Cell.int 0))).map Prod.snd)

/-- Keep cells whose (0-based, offset `k`) index satisfies `p`. -/
def selIdxFrom {α : Type _} (p : Nat → Bool) : Nat → List α → List α
  | _, [] => []
  | k, a :: l => if p k then a :: selIdxFrom p (k + 1) l else selIdxFrom p (k + 1) l

/-- Keep cells whose 0-based index satisfies `p`. -/
def selIdx {α : Type _} (p : Nat → Bool) (l : List α) : List α :=
  selIdxFrom p 0 l

/-- Gene column `j` carries signal iff some data row is nonzero there. -/
def keepCol (m : SMatrix) (j : Nat) : Bool :=
  m.rows.any (fun r => r.2.getD j 0 != 0)

/-- The filtering pass at the structured level: drop all-zero data rows,
drop gene columns that are all-zero across the data rows (equivalently
across the surviving rows — dropped rows are all zero). -/
def SMatrix.filter (m : SMatrix) : SMatrix :=
  { genes := selIdx (keepCol m) m.genes,
    rows := (m.rows.filter (fun r => r.2.any (fun c => c != 0))).map
      (fun r => (r.1, selIdx (keepCol m) r.2)) }

/-- Enumerate-filter-project is index selection. -/
theorem enumFrom_filter_map_snd {α : Type _} (p : Nat → Bool) :
    ∀ (l : List α) (k : Nat),
      ((l.enumFrom k).filter (fun q => p q.1)).map Prod.snd = selIdxFrom p k l := by
  intro l
  induction l with
  | nil => intro k; rfl
  | cons a t ih =>
    intro k
    rw [List.enumFrom_cons, List.filter_cons]
    by_cases h : p k
    · simp only [h, if_true, List.map_cons, ih (k + 1), selIdxFrom, if_pos h]
    · simp only [h, Bool.false_eq_true, if_false, ih (k + 1), selIdxFrom]

/-- `selIdx` as enumerate-filter-project. -/
theorem selIdx_enum {α : Type _} (p : Nat → Bool) (l : List α) :
    (l.enum.filter (fun q => p q.1)).map Prod.snd = selIdx p l :=
  enumFrom_filter_map_snd p l 0

/-- Reindexing a selection that starts past a cons cell. -/
theorem selIdxFrom_shift {α : Type _} (p : Nat → Bool) :
    ∀ (l : List α) (k : Nat),
      selIdxFrom p (k + 1) l = selIdxFrom (fun j => p (j + 1)) k l := by
  intro l
  induction l with
  | nil => intro k; rfl
  | cons a t ih =>
    intro k
    simp only [selIdxFrom, ih (k + 1)]

/-- Selection commutes with `map`. -/
theorem selIdxFrom_map {α β : Type _} (p : Nat → Bool) (f : α → β) :
    ∀ (l : List α) (k : Nat),
      selIdxFrom p k (l.map f) = (selIdxFrom p k l).map f := by
  intro l
  induction l with
  | nil => intro k; rfl
  | cons a t ih =>
    intro k
    simp only [List.map_cons, selIdxFrom, ih (k + 1)]
    by_cases h : p k
    · rw [if_pos h, if_pos h, List.map_cons]
    · rw [if_neg h, if_neg h]

/-- Selections by predicates that agree on the indices actually visited are
equal. -/
theorem selIdxFrom_congr {α : Type _} (p q : Nat → Bool) :
    ∀ (l : List α) (k : Nat),
      (∀ j, j < l.length → p (k + j) = q (k + j)) →
      selIdxFrom p k l = selIdxFrom q k l := by
  intro l
  induction l with
  | nil => intro k _; rfl
  | cons a t ih =>
    intro k hpq
    have h0 := hpq 0 (by simp)
    rw [Nat.add_zero] at h0
    simp only [selIdxFrom, h0, ih (k + 1)
      (fun j hj => by rw [Nat.add_assoc, Nat.add_comm 1 j]
                      exact hpq (j + 1) (by simp; omega))]

/-- A selection keeping every visited index is the identity. -/
theorem selIdxFrom_all {α : Type _} (p : Nat → Bool) :
    ∀ (l : List α) (k : Nat),
      (∀ j, j < l.length → p (k + j) = true) →
      selIdxFrom p k l = l := by
  intro l
  induction l with
  | nil => intro k _; rfl
  | cons a t ih =>
    intro k hall
    have h0 := hall 0 (by simp)
    rw [Nat.add_zero] at h0
    simp only [selIdxFrom, h0, if_true]
    rw [ih (k + 1) (fun j hj => by rw [Nat.add_assoc, Nat.add_comm 1 j]
                                   exact hall (j + 1) (by simp; omega))]

/-- Selections from equal-length lists have equal lengths. -/
theorem selIdxFrom_length_eq {α β : Type _} (p : Nat → Bool) :
    ∀ (l1 : List α) (l2 : List β) (k : Nat), l1.length = l2.length →
      (selIdxFrom p k l1).length = (selIdxFrom p k l2).length := by
  intro l1
  induction l1 with
  | nil =>
    intro l2 k hl
    cases l2 with
    | nil => rfl
    | cons b t2 => simp at hl
  | cons a t1 ih =>
    intro l2 k hl
    cases l2 with
    | nil => simp at hl
    | cons b t2 =>
      simp only [List.length_cons, Nat.succ.injEq] at hl
      simp only [selIdxFrom]
      by_cases h : p k
      · rw [if_pos h, if_pos h]
        simp [ih t2 (k + 1) hl]
      · rw [if_neg h, if_neg h]
        exact ih t2 (k + 1) hl

/-- A cell at a kept index survives the selection. -/
theorem getD_mem_selIdxFrom {α : Type _} (p : Nat → Bool) (d : α) :
    ∀ (l : List α) (k j : Nat), j < l.length → p (k + j) = true →
      l.getD j d ∈ selIdxFrom p k l := by
  intro l
  induction l with
  | nil => intro k j hj _; simp at hj
  | cons a t ih =>
    intro k j hj hp
    cases j with
    | zero =>
      rw [Nat.add_zero] at hp
      simp only [selIdxFrom, hp, if_true, List.getD_cons_zero]
      exact List.mem_cons_self _ _
    | succ j' =>
      have hp' : p (k + 1 + j') = true := by
        rw [show k + 1 + j' = k + (j' + 1) by omega]
        exact hp
      have hj' : j' < t.length := by simp at hj; omega
      have hmem := ih (k + 1) j' hj' hp'
      simp only [selIdxFrom, List.getD_cons_succ]
      by_cases h : p k
      · rw [if_pos h]; exact List.mem_cons_of_mem _ hmem
      · rw [if_neg h]; exact hmem

/-- A sum of naturals is zero iff every summand is zero. -/
theorem natSum_eq_zero_iff (l : List Nat) : l.sum = 0 ↔ ∀ x ∈ l, x = 0 := by
  induction l with
  | nil => simp
  | cons a t ih =>
    simp only [List.sum_cons, List.mem_cons]
    constructor
    · intro h
      have ha : a = 0 := by omega
      have ht : t.sum = 0 := by omega
      intro x hx
      rcases hx with rfl | hx
      · exact ha
      · exact ih.mp ht x hx
    · intro h
      rw [h a (Or.inl rfl), ih.mpr (fun x hx => h x (Or.inr hx))]

/-- With at least one gene column the header row passes the row filter (its
tail holds gene-name strings, which never equal the integer 0). -/
theorem rowKeep_headerRow (m : SMatrix) (hg : m.genes ≠ []) :
    rowKeep (headerRow m) = true := by
  obtain ⟨genes, rows⟩ := m
  cases genes with
  | nil => exact absurd rfl hg
  | cons g0 gs =>
    simp [rowKeep, headerRow, List.replicate_succ]

/-- A data row passes the row filter iff one of its cells is nonzero. -/
theorem rowKeep_dataRow (r : String × List Nat) :
    rowKeep (dataRow r) = r.2.any (fun c => c != 0) := by
  rw [Bool.eq_iff_iff]
  simp only [rowKeep, dataRow, List.drop_succ_cons, List.drop_zero,
    List.length_cons, List.length_map, Nat.add_sub_cancel,
    decide_eq_true_eq, List.any_eq_true, bne_iff_ne, ne_eq]
  constructor
  · intro h
    by_contra hall
    push_neg at hall
    apply h
    apply List.eq_replicate_iff.mpr
    refine ⟨by simp, ?_⟩
    intro b hb
    obtain ⟨c, hc, rfl⟩ := List.mem_map.mp hb
    rw [hall c hc]
  · rintro ⟨c, hc, hcne⟩ heq
    have hmem : Cell.int c ∈ r.2.map Cell.int := List.mem_map_of_mem _ hc
    rw [heq] at hmem
    have := List.eq_of_mem_replicate hmem
    exact hcne (by injection this)

/-- An all-zero row yields zero at every index (also out of range, where the
default 0 applies). -/
theorem getD_zero_of_all_zero (l : List Nat) (h : ∀ c ∈ l, c = 0) (j : Nat) :
    l.getD j 0 = 0 := by
  rw [List.getD_eq_get?]
  cases hl : l.get? j with
  | none => rfl
  | some c => exact h c (List.get?_mem hl)

/-- `x[j+1]` on a data row is the j-th summary cell. -/
theorem dataRow_get?_succ (r : String × List Nat) (j : Nat)
    (hj : j < r.2.length) :
    (dataRow r).get? (j + 1) = some (Cell.int (r.2.getD j 0)) := by
  show (r.2.map Cell.int).get? j = _
  rw [List.get?_map, List.getD_eq_get?]
  obtain ⟨c, hc⟩ : ∃ c, r.2.get? j = some c := ⟨_, List.get?_eq_get hj⟩
  rw [hc]
  rfl

/-- Python's column sum over data rows, at a valid gene-column index. -/
theorem pyColSum_dataRows (rows : List (String × List Nat)) (j : Nat)
    (hlen : ∀ r ∈ rows, j < r.2.length) :
    pyColSum (rows.map dataRow) (j + 1) =
      Except.ok ((rows.map (fun r => r.2.getD j 0)).sum) := by
  unfold pyColSum
  have hmap : (rows.map dataRow).mapM (fun x =>
      match x.get? (j + 1) with
      | none => Except.error PyErr.indexError
      | some (Cell.str _) => Except.error PyErr.typeError
      | some (Cell.int n) => Except.ok n) =
      Except.ok ((rows.map dataRow).map (fun x =>
        match x.get? (j + 1) with
        | some (Cell.int n) => n
        | _ => 0)) := by
    apply mapM_ok
    intro x hx
    obtain ⟨r, hr, rfl⟩ := List.mem_map.mp hx
    rw [dataRow_get?_succ r j (hlen r hr)]
  rw [hmap]
  refine congrArg Except.ok ?_
  refine congrArg List.sum ?_
  rw [List.map_map]
  apply List.map_congr_left
  intro r hr
  show (match (dataRow r).get? (j + 1) with
    | some (Cell.int n) => n
    | _ => 0) = r.2.getD j 0
  rw [dataRow_get?_succ r j (hlen r hr)]

/-- A gene column is all-zero over the surviving data rows iff it is
all-zero over the original data rows (dropped rows are all-zero anyway). -/
theorem colzero_filter_iff (m : SMatrix) (j : Nat) :
    (∀ r ∈ m.rows.filter (fun r => r.2.any (fun c => c != 0)),
        r.2.getD j 0 = 0) ↔
      ∀ r ∈ m.rows, r.2.getD j 0 = 0 := by
  constructor
  · intro h r hr
    by_cases hp : r.2.any (fun c => c != 0) = true
    · exact h r (List.mem_filter.mpr ⟨hr, hp⟩)
    · rw [Bool.not_eq_true] at hp
      have hall := List.any_eq_false.mp hp
      apply getD_zero_of_all_zero
      intro c hc
      have := hall c hc
      simpa using this
  · intro h r hr
    exact h r (List.mem_filter.mp hr).1

/-- The row-filter step of `_filter_output_rows` on a well-formed matrix
with at least one gene column: the header survives and the data rows are
filtered by "has a nonzero cell". -/
theorem filter_rowKeep_toRows (m : SMatrix) (hg : m.genes ≠ []) :
    m.toRows.filter rowKeep =
      headerRow m ::
        (m.rows.filter (fun r => r.2.any (fun c => c != 0))).map dataRow := by
  unfold SMatrix.toRows
  rw [List.filter_cons, if_pos (rowKeep_headerRow m hg), List.filter_map]
  refine congrArg _ ?_
  refine congrArg _ ?_
  apply List.filter_congr
  intro r _
  exact rowKeep_dataRow r

/-- The sum of gene column `i` (1-based row index) over the surviving data
rows. -/
def colSumFiltered (m : SMatrix) (i : Nat) : Nat :=
  ((m.rows.filter (fun r => r.2.any (fun c => c != 0))).map
    (fun r => r.2.getD (i - 1) 0)).sum

/-- The `to_remove` column-index list computed by `_filter_output_rows`. -/
def toRemoveList (m : SMatrix) : List Nat :=
  (List.range' 1 m.genes.length).filter (fun i => colSumFiltered m i == 0)

/-- Index 0 (the identifier column) is never removed. -/
theorem toRemoveList_contains_zero (m : SMatrix) :
    (toRemoveList m).contains 0 = false := by
  rw [Bool.eq_false_iff]
  intro h
  have h0 : (0 : Nat) ∈ toRemoveList m := List.elem_iff.mp h
  have := (List.mem_filter.mp h0).1
  obtain ⟨k, hk, he⟩ := List.mem_range'.mp this
  omega

/-- Row index `j + 1` is removed exactly when gene column `j` carries no
signal. -/
theorem toRemoveList_contains_succ (m : SMatrix) (j : Nat)
    (hj : j < m.genes.length) :
    (toRemoveList m).contains (j + 1) = !(keepCol m j) := by
  rw [Bool.eq_iff_iff]
  rw [show ((toRemoveList m).contains (j + 1) = true) ↔
      (j + 1) ∈ toRemoveList m from List.elem_iff]
  unfold toRemoveList
  rw [List.mem_filter]
  constructor
  · rintro ⟨-, hzero⟩
    have hsum : colSumFiltered m (j + 1) = 0 := by simpa using hzero
    unfold colSumFiltered at hsum
    simp only [Nat.add_sub_cancel] at hsum
    have hall := (natSum_eq_zero_iff _).mp hsum
    have hzeros : ∀ r ∈ m.rows, r.2.getD j 0 = 0 := by
      apply (colzero_filter_iff m j).mp
      intro r hr
      exact hall _ (List.mem_map_of_mem _ hr)
    cases hk : keepCol m j
    · rfl
    · exfalso
      unfold keepCol at hk
      obtain ⟨r, hr, hrne⟩ := List.any_eq_true.mp hk
      rw [hzeros r hr] at hrne
      simp at hrne
  · intro hnk
    have hkc : keepCol m j = false := by
      cases hk : keepCol m j
      · rfl
      · rw [hk] at hnk; simp at hnk
    unfold keepCol at hkc
    have hall := List.any_eq_false.mp hkc
    have hz : ∀ r ∈ m.rows, r.2.getD j 0 = 0 := by
      intro r hr
      have := hall r hr
      simpa using this
    refine ⟨List.mem_range'.mpr ⟨j, hj, by omega⟩, ?_⟩
    have hs : colSumFiltered m (j + 1) = 0 := by
      unfold colSumFiltered
      simp only [Nat.add_sub_cancel]
      apply (natSum_eq_zero_iff _).mpr
      intro x hx
      obtain ⟨r, hr, rfl⟩ := List.mem_map.mp hx
      exact (colzero_filter_iff m j).mpr hz r hr
    simpa using hs

/-- The raw column-sum pairs computed by `_filter_output_rows` reduce to
`toRemoveList`. -/
theorem toRemove_raw_eq (m : SMatrix) :
    ((((List.range' 1 m.genes.length).map (fun i =>
        (i, ((m.rows.filter (fun r => r.2.any (fun c => c != 0))).map
          (fun r => r.2.getD (i - 1) 0)).sum))).filter
        (fun c => c.2 == 0)).map Prod.fst) = toRemoveList m := by
  rw [List.filter_map, List.map_map]
  exact List.map_id'' (fun x => rfl) _

/-- `selIdx` form of the per-row rebuild of `_filter_output_rows`. -/
theorem selIdx_enum_toRemove (m : SMatrix) (x : List Cell) :
    (x.enum.filter (fun q => !((toRemoveList m).contains q.1))).map Prod.snd =
      selIdx (fun i => !((toRemoveList m).contains i)) x :=
  enumFrom_filter_map_snd (fun i => !((toRemoveList m).contains i)) x 0

/-- Selecting by "not removed" on an identifier-headed row keeps the head
and keeps exactly the signal-carrying gene columns of the tail. -/
theorem selIdx_toRemove (m : SMatrix) {β : Type _} (hd : Cell) (f : β → Cell)
    (l : List β) (hlen : l.length = m.genes.length) :
    selIdx (fun i => !((toRemoveList m).contains i)) (hd :: l.map f) =
      hd :: (selIdx (keepCol m) l).map f := by
  unfold selIdx
  simp only [selIdxFrom, toRemoveList_contains_zero m, Bool.not_false, if_true]
  rw [selIdxFrom_shift, selIdxFrom_map]
  refine congrArg _ (congrArg _ ?_)
  apply selIdxFrom_congr
  intro j hj
  rw [Nat.zero_add, toRemoveList_contains_succ m j (hlen ▸ hj), Bool.not_not]

/-- Bridge: on a well-formed matrix with at least one gene column,
`_filter_output_rows` succeeds and produces exactly the structured filter's
output. -/
theorem filterOutputRows_toRows (m : SMatrix) (hwf : m.WF) (hg : m.genes ≠ []) :
    filterOutputRows m.toRows = Except.ok m.filter.toRows := by
  unfold filterOutputRows
  rw [filter_rowKeep_toRows m hg]
  dsimp only
  have hhlen : (headerRow m).length - 1 = m.genes.length := by
    simp [headerRow]
  rw [hhlen]
  have hcol : (List.range' 1 m.genes.length).mapM (fun i =>
      match pyColSum ((m.rows.filter (fun r => r.2.any (fun c => c != 0))).map dataRow) i with
      | Except.error e => Except.error e
      | Except.ok s => Except.ok (i, s)) =
      Except.ok ((List.range' 1 m.genes.length).map (fun i =>
        (i, ((m.rows.filter (fun r => r.2.any (fun c => c != 0))).map
          (fun r => r.2.getD (i - 1) 0)).sum))) := by
    apply mapM_ok
    intro i hi
    obtain ⟨k, hk, hik⟩ := List.mem_range'.mp hi
    have hik' : i = k + 1 := by omega
    subst hik'
    rw [pyColSum_dataRows _ k (fun r hr => by
      rw [hwf r (List.mem_filter.mp hr).1]
      exact hk)]
    simp
  rw [hcol]
  dsimp only
  refine congrArg Except.ok ?_
  simp only [toRemove_raw_eq m, selIdx_enum_toRemove m]
  rw [List.map_cons]
  show _ :: _ = headerRow m.filter :: m.filter.rows.map dataRow
  refine congrArg₂ List.cons ?_ ?_
  · exact selIdx_toRemove m (Cell.str "filename") Cell.str m.genes rfl
  · show ((m.rows.filter (fun r => r.2.any (fun c => c != 0))).map dataRow).map _ =
      ((m.rows.filter (fun r => r.2.any (fun c => c != 0))).map
        (fun r => (r.1, selIdx (keepCol m) r.2))).map dataRow
    rw [List.map_map, List.map_map]
    apply List.map_congr_left
    intro r hr
    show selIdx (fun i => !((toRemoveList m).contains i)) (dataRow r) =
      dataRow (r.1, selIdx (keepCol m) r.2)
    exact selIdx_toRemove m (Cell.str r.1) Cell.int r.2
      (hwf r (List.mem_filter.mp hr).1)

/-- `any` over a mapped list (heterogeneous version). -/
theorem any_map_general {α β : Type _} (f : α → β) (l : List α) (p : β → Bool) :
    (l.map f).any p = l.any (fun a => p (f a)) := by
  induction l with
  | nil => rfl
  | cons x t ih => simp only [List.map_cons, List.any_cons, ih]

/-- `all` over a mapped list (heterogeneous version). -/
theorem all_map_general {α β : Type _} (f : α → β) (l : List α) (p : β → Bool) :
    (l.map f).all p = l.all (fun a => p (f a)) := by
  induction l with
  | nil => rfl
  | cons x t ih => simp only [List.map_cons, List.all_cons, ih]

/-- Integer cells compare like their payloads. -/
theorem cellInt_bne (a b : Nat) : (Cell.int a != Cell.int b) = (a != b) := by
  rw [Bool.eq_iff_iff]
  simp

/-- The spec's row test on a data row agrees with "has a nonzero cell". -/
theorem specRowPred_dataRow (r : String × List Nat) :
    (!((dataRow r).drop 1).all (fun c => c == Cell.int 0)) =
      r.2.any (fun c => c != 0) := by
  simp only [dataRow, List.drop_succ_cons, List.drop_zero,
    List.not_all_eq_any_not, any_map_general]
  refine congrArg (List.any r.2) (funext fun c => ?_)
  show (!(Cell.int c == Cell.int 0)) = (c != 0)
  rw [show (!(Cell.int c == Cell.int 0)) = (Cell.int c != Cell.int 0) from rfl,
    cellInt_bne]

/-- A data row's cell at row index `j + 1`, with the integer-0 default. -/
theorem dataRow_getD_succ (r : String × List Nat) (j : Nat) :
    (dataRow r).getD (j + 1) (Cell.int 0) = Cell.int (r.2.getD j 0) := by
  show (r.2.map Cell.int).getD j (Cell.int 0) = _
  rw [List.getD_eq_getElem?_getD, List.getD_eq_getElem?_getD, List.getElem?_map]
  cases h : r.2[j]? <;> rfl

/-- `selIdx` form of the per-row rebuild of the spec filter. -/
theorem selIdx_enum_spec (m : SMatrix) (x : List Cell) :
    (x.enum.filter (fun q => q.1 == 0 || (m.rows.map dataRow).any
      (fun y => y.getD q.1 (Cell.int 0) != Cell.int 0))).map Prod.snd =
      selIdx (fun i => i == 0 || (m.rows.map dataRow).any
        (fun y => y.getD i (Cell.int 0) != Cell.int 0)) x :=
  enumFrom_filter_map_snd (fun i => i == 0 || (m.rows.map dataRow).any
    (fun y => y.getD i (Cell.int 0) != Cell.int 0)) x 0

/-- Selecting by the spec's column test on an identifier-headed row keeps
the head and exactly the signal-carrying gene columns of the tail. -/
theorem selIdx_specPred (m : SMatrix) {β : Type _} (hd : Cell) (f : β → Cell)
    (l : List β) :
    selIdx (fun i => i == 0 || (m.rows.map dataRow).any
      (fun y => y.getD i (Cell.int 0) != Cell.int 0)) (hd :: l.map f) =
      hd :: (selIdx (keepCol m) l).map f := by
  unfold selIdx
  simp only [selIdxFrom]
  rw [if_pos (by simp)]
  rw [selIdxFrom_shift, selIdxFrom_map]
  refine congrArg _ (congrArg _ ?_)
  apply selIdxFrom_congr
  intro j hj
  rw [Nat.zero_add]
  show (j + 1 == 0 || (m.rows.map dataRow).any
    (fun y => y.getD (j + 1) (Cell.int 0) != Cell.int 0)) = keepCol m j
  rw [show (j + 1 == 0) = false from rfl, Bool.false_or, any_map_general]
  unfold keepCol
  refine congrArg (List.any m.rows) (funext fun r => ?_)
  show ((dataRow r).getD (j + 1) (Cell.int 0) != Cell.int 0) = _
  rw [dataRow_getD_succ, cellInt_bne]

/-- Bridge: the spec's independent-basis filter also produces exactly the
structured filter's output, on every well-formed matrix. -/
theorem specFilter_toRows (m : SMatrix) :
    specFilter m.toRows = m.filter.toRows := by
  unfold specFilter SMatrix.toRows
  dsimp only
  rw [show (m.rows.map dataRow).filter
      (fun x => !(x.drop 1).all (fun c => c == Cell.int 0)) =
      (m.rows.filter (fun r => r.2.any (fun c => c != 0))).map dataRow from by
    rw [List.filter_map]
    refine congrArg _ ?_
    apply List.filter_congr
    intro r _
    exact specRowPred_dataRow r]
  simp only [selIdx_enum_spec m]
  rw [List.map_cons]
  show _ :: _ = headerRow m.filter :: m.filter.rows.map dataRow
  refine congrArg₂ List.cons ?_ ?_
  · exact selIdx_specPred m (Cell.str "filename") Cell.str m.genes
  · show ((m.rows.filter (fun r => r.2.any (fun c => c != 0))).map dataRow).map _ =
      ((m.rows.filter (fun r => r.2.any (fun c => c != 0))).map
        (fun r => (r.1, selIdx (keepCol m) r.2))).map dataRow
    rw [List.map_map, List.map_map]
    apply List.map_congr_left
    intro r hr
    show selIdx (fun i => i == 0 || (m.rows.map dataRow).any
      (fun y => y.getD i (Cell.int 0) != Cell.int 0)) (dataRow r) =
      dataRow (r.1, selIdx (keepCol m) r.2)
    exact selIdx_specPred m (Cell.str r.1) Cell.int r.2

/-- Claim C3 amended: on every well-formed summary matrix with at least one
gene column, the implemented filter (rows dropped first, columns then
evaluated over the remaining rows) produces exactly the result of the
spec's evaluation basis (row filter and column filter computed
independently against the unfiltered matrix, then both applied). -/
theorem filterOutputRows_eq_specFilter (m : SMatrix) (hwf : m.WF)
    (hg : m.genes ≠ []) :
    filterOutputRows m.toRows = Except.ok (specFilter m.toRows) := by
  rw [filterOutputRows_toRows m hwf hg, specFilter_toRows m]

/-- Counterexample to claim C3 as stated: on a matrix with zero gene
columns every row's tail equals the empty zero list, so the implemented
filter drops all rows — the header included — and then fails indexing
`rows[0]`, while the spec's independent-basis filter returns the bare
header row; the two results differ. -/
theorem filterOutputRows_specFilter_counterexample :
    filterOutputRows [[Cell.str "filename"], [Cell.str "s1"]] =
      Except.error PyErr.indexError ∧
    specFilter [[Cell.str "filename"], [Cell.str "s1"]] =
      [[Cell.str "filename"]] :=
  ⟨rfl, rfl⟩

/-- Witness for the amended C3 at a one-sample, one-gene matrix. -/
theorem filterOutputRows_eq_specFilter_witness :
    filterOutputRows (SMatrix.toRows { genes := ["g1"], rows := [("s1", [2])] }) =
      Except.ok (specFilter
        (SMatrix.toRows { genes := ["g1"], rows := [("s1", [2])] })) :=
  filterOutputRows_eq_specFilter
    { genes := ["g1"], rows := [("s1", [2])] } (by decide) (by decide)

/-- Filtering preserves well-formedness. -/
theorem smatrixFilter_WF (m : SMatrix) (hwf : m.WF) : m.filter.WF := by
  intro r hr
  obtain ⟨r0, hr0, rfl⟩ := List.mem_map.mp hr
  show (selIdx (keepCol m) r0.2).length = (selIdx (keepCol m) m.genes).length
  exact selIdxFrom_length_eq _ _ _ 0 (hwf r0 (List.mem_filter.mp hr0).1)

/-- Aligned index selection: position `j'` of the selected gene list comes
from one original index `j`, kept by `p`, and the SAME index aligns the
selected cells of every equal-length companion list. -/
theorem selIdxFrom_align {α β : Type _} (p : Nat → Bool) (d1 : α) (d2 : β) :
    ∀ (l1 : List α) (L : List (List β)) (k j' : Nat),
      (∀ l2 ∈ L, l2.length = l1.length) →
      j' < (selIdxFrom p k l1).length →
      ∃ j, j < l1.length ∧ p (k + j) = true ∧
        (selIdxFrom p k l1).getD j' d1 = l1.getD j d1 ∧
        ∀ l2 ∈ L, (selIdxFrom p k l2).getD j' d2 = l2.getD j d2 := by
  intro l1
  induction l1 with
  | nil =>
    intro L k j' hL hj'
    simp [selIdxFrom] at hj'
  | cons a t ih =>
    intro L k j' hL hj'
    have hLt : ∀ t2 ∈ L.map List.tail, t2.length = t.length := by
      intro t2 ht2
      obtain ⟨l2, hl2, rfl⟩ := List.mem_map.mp ht2
      have hlen2 := hL l2 hl2
      cases l2 with
      | nil => simp at hlen2
      | cons b t2' =>
        simp only [List.length_cons, Nat.succ.injEq] at hlen2
        simpa using hlen2
    by_cases hp : p k
    · simp only [selIdxFrom, hp, if_true] at hj' ⊢
      cases j' with
      | zero =>
        refine ⟨0, by simp, by rw [Nat.add_zero]; exact hp, by simp, ?_⟩
        intro l2 hl2
        have hlen2 := hL l2 hl2
        cases l2 with
        | nil => simp at hlen2
        | cons b t2 => simp [selIdxFrom, hp]
      | succ j'' =>
        have hj'' : j'' < (selIdxFrom p (k + 1) t).length := by
          simp only [List.length_cons] at hj'
          omega
        obtain ⟨j, hjt, hpj, hg1, hg2⟩ := ih (L.map List.tail) (k + 1) j'' hLt hj''
        refine ⟨j + 1, by simp only [List.length_cons]; omega, ?_, ?_, ?_⟩
        · rw [show k + (j + 1) = k + 1 + j by omega]
          exact hpj
        · rw [List.getD_cons_succ, List.getD_cons_succ]
          exact hg1
        · intro l2 hl2
          have hlen2 := hL l2 hl2
          cases l2 with
          | nil => simp at hlen2
          | cons b t2 =>
            simp only [selIdxFrom, hp, if_true, List.getD_cons_succ]
            exact hg2 t2 (by
              have : List.tail (b :: t2) = t2 := rfl
              exact this ▸ List.mem_map_of_mem List.tail hl2)
    · simp only [selIdxFrom, hp, Bool.false_eq_true, if_false] at hj' ⊢
      obtain ⟨j, hjt, hpj, hg1, hg2⟩ := ih (L.map List.tail) (k + 1) j' hLt hj'
      refine ⟨j + 1, by simp only [List.length_cons]; omega, ?_, ?_, ?_⟩
      · rw [show k + (j + 1) = k + 1 + j by omega]
        exact hpj
      · rw [List.getD_cons_succ]
        exact hg1
      · intro l2 hl2
        have hlen2 := hL l2 hl2
        cases l2 with
        | nil => simp at hlen2
        | cons b t2 =>
          simp only [selIdxFrom, hp, Bool.false_eq_true, if_false,
            List.getD_cons_succ]
          exact hg2 t2 (by
            have : List.tail (b :: t2) = t2 := rfl
            exact this ▸ List.mem_map_of_mem List.tail hl2)

/-- A nonzero value of `getD` pins the index inside the list. -/
theorem lt_length_of_getD_ne_zero {l : List Nat} {j : Nat}
    (h : l.getD j 0 ≠ 0) : j < l.length := by
  by_contra hout
  push_neg at hout
  exact h (List.getD_eq_default _ _ hout)

/-- Every surviving row of the filtered matrix still carries a nonzero
cell: the witness cell's column carries signal, hence is kept. -/
theorem filter_rows_nonzero (m : SMatrix) (hwf : m.WF) :
    ∀ r' ∈ m.filter.rows, r'.2.any (fun c => c != 0) = true := by
  intro r' hr'
  obtain ⟨r, hr, rfl⟩ := List.mem_map.mp hr'
  have hp := (List.mem_filter.mp hr).2
  obtain ⟨c, hc, hcne⟩ := List.any_eq_true.mp hp
  obtain ⟨j, hj, rfl⟩ := List.mem_iff_getElem.mp hc
  have hgetd : r.2.getD j 0 = r.2[j] := List.getD_eq_getElem _ _ hj
  have hK : keepCol m j = true := by
    apply List.any_eq_true.mpr
    exact ⟨r, (List.mem_filter.mp hr).1, by rw [hgetd]; exact hcne⟩
  have hmem : r.2.getD j 0 ∈ selIdx (keepCol m) r.2 :=
    getD_mem_selIdxFrom (keepCol m) 0 r.2 0 j hj
      (by rw [Nat.zero_add]; exact hK)
  exact List.any_eq_true.mpr ⟨r.2.getD j 0, hmem, by rw [hgetd]; exact hcne⟩

/-- With at least one nonzero data cell the filtered matrix keeps at least
one gene column. -/
theorem filter_genes_ne_nil (m : SMatrix) (hwf : m.WF)
    (hnz : m.rows.any (fun r => r.2.any (fun c => c != 0)) = true) :
    m.filter.genes ≠ [] := by
  obtain ⟨r, hr, hrany⟩ := List.any_eq_true.mp hnz
  obtain ⟨c, hc, hcne⟩ := List.any_eq_true.mp hrany
  obtain ⟨j, hj, rfl⟩ := List.mem_iff_getElem.mp hc
  have hgetd : r.2.getD j 0 = r.2[j] := List.getD_eq_getElem _ _ hj
  have hK : keepCol m j = true :=
    List.any_eq_true.mpr ⟨r, hr, by rw [hgetd]; exact hcne⟩
  have hjg : j < m.genes.length := by rw [← hwf r hr]; exact hj
  have hmem : m.genes.getD j "" ∈ selIdx (keepCol m) m.genes :=
    getD_mem_selIdxFrom (keepCol m) "" m.genes 0 j hjg
      (by rw [Nat.zero_add]; exact hK)
  exact List.ne_nil_of_mem hmem

/-- Every gene column of the filtered matrix carries signal. -/
theorem keepCol_filter (m : SMatrix) (hwf : m.WF) :
    ∀ j', j' < m.filter.genes.length → keepCol m.filter j' = true := by
  intro j' hj'
  have hL : ∀ l2 ∈ (m.rows.filter (fun r => r.2.any (fun c => c != 0))).map
      (fun r => r.2), l2.length = m.genes.length := by
    intro l2 hl2
    obtain ⟨r, hr, rfl⟩ := List.mem_map.mp hl2
    exact hwf r (List.mem_filter.mp hr).1
  obtain ⟨j, hjg, hpj, -, hrows⟩ :=
    selIdxFrom_align (keepCol m) "" 0 m.genes
      ((m.rows.filter (fun r => r.2.any (fun c => c != 0))).map (fun r => r.2))
      0 j' hL hj'
  rw [Nat.zero_add] at hpj
  obtain ⟨r, hr, hrne⟩ := List.any_eq_true.mp hpj
  have hne : r.2.getD j 0 ≠ 0 := by simpa using hrne
  have hjlen : j < r.2.length := lt_length_of_getD_ne_zero hne
  have hrkept : r ∈ m.rows.filter (fun x => x.2.any (fun c => c != 0)) := by
    refine List.mem_filter.mpr ⟨hr, ?_⟩
    apply List.any_eq_true.mpr
    refine ⟨r.2.getD j 0, ?_, by simpa using hne⟩
    rw [List.getD_eq_getElem _ _ hjlen]
    exact List.getElem_mem hjlen
  apply List.any_eq_true.mpr
  refine ⟨(r.1, selIdx (keepCol m) r.2), List.mem_map_of_mem _ hrkept, ?_⟩
  show ((selIdx (keepCol m) r.2).getD j' 0 != 0) = true
  have halign := hrows r.2 (List.mem_map_of_mem (fun r => r.2) hrkept)
  show ((selIdxFrom (keepCol m) 0 r.2).getD j' 0 != 0) = true
  rw [halign]
  simpa using hne

/-- The structured filtering pass is a fixpoint on its own output. -/
theorem smatrixFilter_idem (m : SMatrix) (hwf : m.WF) :
    m.filter.filter = m.filter := by
  have hrows := filter_rows_nonzero m hwf
  have hcols := keepCol_filter m hwf
  have hwf' := smatrixFilter_WF m hwf
  show SMatrix.mk _ _ = m.filter
  have hgenes : selIdx (keepCol m.filter) m.filter.genes = m.filter.genes := by
    apply selIdxFrom_all
    intro j hj
    rw [Nat.zero_add]
    exact hcols j hj
  have hrweq : m.filter.rows.filter (fun r => r.2.any (fun c => c != 0)) =
      m.filter.rows := List.filter_eq_self.mpr hrows
  calc SMatrix.mk (selIdx (keepCol m.filter) m.filter.genes)
        ((m.filter.rows.filter (fun r => r.2.any (fun c => c != 0))).map
          (fun r => (r.1, selIdx (keepCol m.filter) r.2)))
      = SMatrix.mk m.filter.genes
        (m.filter.rows.map (fun r => (r.1, selIdx (keepCol m.filter) r.2))) := by
        rw [hgenes, hrweq]
    _ = SMatrix.mk m.filter.genes m.filter.rows := by
        refine congrArg _ ?_
        calc m.filter.rows.map (fun r => (r.1, selIdx (keepCol m.filter) r.2))
            = m.filter.rows.map (fun r => r) := by
              apply List.map_congr_left
              intro r hr
              have hsel : selIdx (keepCol m.filter) r.2 = r.2 := by
                apply selIdxFrom_all
                intro j hj
                rw [Nat.zero_add]
                exact hcols j (by rw [← hwf' r hr]; exact hj)
              rw [hsel]
          _ = m.filter.rows := List.map_id' _
    _ = m.filter := rfl

/-- Claim C4 amended: the filtering pass is idempotent on every well-formed
matrix that has at least one nonzero data cell — the first pass succeeds,
and a second pass reproduces its output exactly.  (On the all-zero
degenerate matrix of the claim the second pass instead fails; see the
counterexample.) -/
theorem filterOutputRows_idempotent (m : SMatrix) (hwf : m.WF)
    (hnz : m.rows.any (fun r => r.2.any (fun c => c != 0)) = true) :
    ∃ fm, filterOutputRows m.toRows = Except.ok fm ∧
      filterOutputRows fm = Except.ok fm := by
  have hg : m.genes ≠ [] := by
    obtain ⟨r, hr, hrany⟩ := List.any_eq_true.mp hnz
    obtain ⟨c, hc, -⟩ := List.any_eq_true.mp hrany
    intro hgeq
    have hlen := hwf r hr
    rw [hgeq] at hlen
    simp only [List.length_nil] at hlen
    exact List.ne_nil_of_mem hc (List.length_eq_zero.mp hlen)
  refine ⟨m.filter.toRows, filterOutputRows_toRows m hwf hg, ?_⟩
  have h2 := filterOutputRows_toRows m.filter (smatrixFilter_WF m hwf)
    (filter_genes_ne_nil m hwf hnz)
  rw [h2, smatrixFilter_idem m hwf]

/-- Counterexample to claim C4 as stated: the all-zero one-gene matrix is
reduced by one pass to the bare header row `[['filename']]`, but applying
the filter to that already-filtered matrix does not return it unchanged —
it removes the header (its tail is the empty zero list) and then fails with
an index error at `rows[0]`. -/
theorem filterOutputRows_idem_counterexample :
    filterOutputRows (SMatrix.toRows { genes := ["g1"], rows := [("s1", [0])] }) =
      Except.ok [[Cell.str "filename"]] ∧
    filterOutputRows [[Cell.str "filename"]] = Except.error PyErr.indexError :=
  ⟨rfl, rfl⟩

/-- Witness for the amended C4 at a one-sample, one-gene matrix with a
nonzero cell. -/
theorem filterOutputRows_idempotent_witness :
    ∃ fm, filterOutputRows
        (SMatrix.toRows { genes := ["g1"], rows := [("s1", [3])] }) =
        Except.ok fm ∧
      filterOutputRows fm = Except.ok fm :=
  filterOutputRows_idempotent { genes := ["g1"], rows := [("s1", [3])] }
    (by decide) (by decide)

/-- `sorted(set(...))` of Python: deduplicate, then sort ascending.  (The
sorted no-duplicate list of a given membership is unique, so insertion sort
over `dedup` is extensionally the Python construction.) -/
def sortedGenes (l : List String) : List String :=
  List.insertionSort (· ≤ ·) l.dedup

/-- `all_genes` of `_gather_output_rows`: the sorted deduplicated union of
the gene names over all samples' reports. -/
def allGenesOf (samples : List (String × List (String × List Record))) :
    List String :=
  sortedGenes ((samples.map (fun s => s.2.map Prod.fst)).flatten)

/-- `Summary._gather_output_rows`, on already-loaded reports: `self.data`
maps each filename to its gene → records dictionary (modelled as an
association list in insertion order); the output is the header row followed
by one row per input file, in the order the files were supplied, with cell 0
for a gene absent from that sample and the summary number otherwise. -/
def gatherOutputRows (min_id : Rat)
    (samples : List (String × List (String × List Record))) :
    Except PyErr (List (List Cell)) :=
  match samples.mapM (fun s =>
    match (allGenesOf samples).mapM (fun g =>
      match s.2.lookup g with
      | none => Except.ok (Cell.int 0)
      | some recs =>
        match toSummaryNumber min_id recs with
        | Except.error e => Except.error e
        | Except.ok n => Except.ok (Cell.int n)) with
    | Except.error e => Except.error e
    | Except.ok cells => Except.ok (Cell.str s.1 :: cells)) with
  | Except.error e => Except.error e
  | Except.ok body =>
    Except.ok ((Cell.str "filename" :: (allGenesOf samples).map Cell.str) :: body)

/-- The value of one matrix cell: 0 when the sample has no entry for the
gene, else the summary number (the error fallback is never reached when
classification succeeds). -/
def cellValue (min_id : Rat) (report : List (String × List Record))
    (g : String) : Nat :=
  match report.lookup g with
  | none => 0
  | some recs =>
    match toSummaryNumber min_id recs with
    | Except.ok n => n
    | Except.error _ => 0

/-- A successful association-list lookup exhibits a member. -/
theorem lookup_mem {β : Type _} (l : List (String × β)) (g : String) (b : β)
    (h : l.lookup g = some b) : (g, b) ∈ l := by
  induction l with
  | nil => exact absurd h (by simp [List.lookup])
  | cons p t ih =>
    obtain ⟨k, v⟩ := p
    rw [List.lookup] at h
    cases hak : (g == k) with
    | true =>
      simp only [hak] at h
      injection h with h
      subst h
      have hgk : g = k := by simpa using hak
      subst hgk
      exact List.mem_cons_self _ _
    | false =>
      simp only [hak] at h
      exact List.mem_cons_of_mem _ (ih h)

/-- Claim C7: on every mapping from sample names to loaded reports whose
record lists all classify successfully — including the empty mapping —
`_gather_output_rows` succeeds; the header carries the sorted (ascending)
deduplicated union of all gene names, the data rows appear in the order the
samples were supplied, and each cell is 0 for an absent gene and the
classification of the sample's record list otherwise. -/
theorem gatherOutputRows_spec (min_id : Rat)
    (samples : List (String × List (String × List Record)))
    (hok : ∀ s ∈ samples, ∀ p ∈ s.2,
      ∃ n, toSummaryNumber min_id p.2 = Except.ok n) :
    gatherOutputRows min_id samples = Except.ok
      ((Cell.str "filename" :: (allGenesOf samples).map Cell.str) ::
        samples.map (fun s => Cell.str s.1 ::
          (allGenesOf samples).map (fun g => Cell.int (cellValue min_id s.2 g)))) ∧
    (allGenesOf samples).Sorted (· ≤ ·) ∧
    (allGenesOf samples).Nodup ∧
    ∀ g, (g ∈ allGenesOf samples ↔ ∃ s ∈ samples, ∃ p ∈ s.2, p.1 = g) := by
  refine ⟨?_, ?_, ?_, ?_⟩
  · unfold gatherOutputRows
    have houter : samples.mapM (fun s =>
        match (allGenesOf samples).mapM (fun g =>
          match s.2.lookup g with
          | none => Except.ok (Cell.int 0)
          | some recs =>
            match toSummaryNumber min_id recs with
            | Except.error e => Except.error e
            | Except.ok n => Except.ok (Cell.int n)) with
        | Except.error e => Except.error e
        | Except.ok cells => Except.ok (Cell.str s.1 :: cells)) =
        Except.ok (samples.map (fun s => Cell.str s.1 ::
          (allGenesOf samples).map (fun g =>
            Cell.int (cellValue min_id s.2 g)))) := by
      apply mapM_ok
      intro s hs
      have hinner : (allGenesOf samples).mapM (fun g =>
          match s.2.lookup g with
          | none => Except.ok (Cell.int 0)
          | some recs =>
            match toSummaryNumber min_id recs with
            | Except.error e => Except.error e
            | Except.ok n => Except.ok (Cell.int n)) =
          Except.ok ((allGenesOf samples).map (fun g =>
            Cell.int (cellValue min_id s.2 g))) := by
        apply mapM_ok
        intro g _
        cases hl : s.2.lookup g with
        | none =>
          unfold cellValue
          rw [hl]
        | some recs =>
          obtain ⟨n, hn⟩ := hok s hs (g, recs) (lookup_mem s.2 g recs hl)
          have hn' : toSummaryNumber min_id recs = Except.ok n := hn
          unfold cellValue
          rw [hl]
          dsimp only
          rw [hn']
      rw [hinner]
    rw [houter]
  · exact List.sorted_insertionSort (· ≤ ·) _
  · exact ((List.perm_insertionSort (· ≤ ·) _).nodup_iff).mpr
      (List.nodup_dedup _)
  · intro g
    unfold allGenesOf sortedGenes
    rw [(List.perm_insertionSort (· ≤ ·) _).mem_iff, List.mem_dedup,
      List.mem_flatten]
    constructor
    · rintro ⟨l, hl, hgl⟩
      obtain ⟨s, hs, rfl⟩ := List.mem_map.mp hl
      obtain ⟨p, hp, rfl⟩ := List.mem_map.mp hgl
      exact ⟨s, hs, p, hp, rfl⟩
    · rintro ⟨s, hs, p, hp, rfl⟩
      exact ⟨s.2.map Prod.fst, List.mem_map_of_mem _ hs,
        List.mem_map_of_mem _ hp⟩

/-- A record whose flags and identity classify to summary number 4. -/
def exRecordC7 : Record :=
  { gene := "geneX",
    flag := { assembly_fail := false, gene_assembled := true,
              hit_both_strands := false, complete_orf := true,
              unique_contig := true, gene_assembled_into_one_contig := true,
              has_nonsynonymous_variants := false },
    assembled := some 500, pc_ident := some 99 }

/-- Witness for C7: one sample with one gene. -/
theorem gatherOutputRows_spec_witness :
    gatherOutputRows 90 [("fileA", [("geneX", [exRecordC7])])] = Except.ok
      ((Cell.str "filename" ::
          (allGenesOf [("fileA", [("geneX", [exRecordC7])])]).map Cell.str) ::
        [("fileA", [("geneX", [exRecordC7])])].map (fun s => Cell.str s.1 ::
          (allGenesOf [("fileA", [("geneX", [exRecordC7])])]).map (fun g =>
            Cell.int (cellValue 90 s.2 g)))) :=
  (gatherOutputRows_spec 90 [("fileA", [("geneX", [exRecordC7])])] (by
    intro s hs p hp
    simp only [List.mem_singleton] at hs
    subst hs
    simp only [List.mem_singleton] at hp
    subst hp
    exact ⟨4, rfl⟩)).1

/-- The fixed 21-column header (`columns` in `summary.py`). -/
def columns : List String :=
  ["gene", "flag", "reads", "cluster", "gene_len", "assembled", "pc_ident",
   "var_type", "var_effect", "new_aa", "gene_start", "gene_end", "gene_nt",
   "scaffold", "scaff_len", "scaff_start", "scaff_end", "scaff_nt",
   "read_depth", "alt_bases", "ref_alt_depth"]

/-- Python `str.rstrip()`: drop trailing whitespace (lines are modelled as
their character sequences). -/
def pyRstrip (l : List Char) : List Char :=
  (l.reverse.dropWhile Char.isWhitespace).reverse

/-- Python `str.split` with the explicit single-character separator `'\t'`:
the empty string yields `['']`, and separators at either end yield empty
fields. -/
def pySplitTab : List Char → List (List Char)
  | [] => [[]]
  | c :: rest =>
    if c = '\t' then [] :: pySplitTab rest
    else
      match pySplitTab rest with
      | [] => [[c]]
      | p :: ps => (c :: p) :: ps

/-- The `d[gene].append(...)` update of `_load_file` on the insertion-ordered
gene dictionary: append to an existing gene's list, else add the gene at the
end. -/
def appendRecord : List (String × List Record) → String → Record →
    List (String × List Record)
  | [], g, record => [(g, [record])]
  | (k, rs) :: rest, g, record =>
    if k = g then (k, rs ++ [record]) :: rest
    else (k, rs) :: appendRecord rest g record

/-- The line loop of `Summary._load_file`: every line starting with `'#'` is
checked — `line.rstrip()[1:].split('\t')` must equal `columns`, else an
`Error` naming the line is raised — and then skipped; any other line is
parsed by `self._line2dict` (passed in as `parseLine`, which can itself
raise on malformed numeric fields) and appended under its gene. -/
def loadFileLoop (parseLine : List Char → Except PyErr Record) :
    List (String × List Record) → List (List Char) →
      Except PyErr (List (String × List Record))
  | d, [] => Except.ok d
  | d, line :: rest =>
    if line.head? = some '#' then
      if pySplitTab ((pyRstrip line).drop 1) = columns.map String.toList then
        loadFileLoop parseLine d rest
      else Except.error (PyErr.formatError line)
    else
      match parseLine line with
      | Except.error e => Except.error e
      | Except.ok record => loadFileLoop parseLine (appendRecord d record.gene record) rest

/-- Claim C10: at ANY point of the load — any partial dictionary `d`, any
remaining lines — a line beginning with `'#'` is validated against the fixed
21-column header (after dropping the leading `'#'`, stripping trailing
whitespace and splitting on tabs): on mismatch the loader raises a format
error naming the offending line, and on match the line is skipped without
being parsed as a data record and without touching the dictionary. -/
theorem loadFileLoop_hash_line (parseLine : List Char → Except PyErr Record)
    (d : List (String × List Record)) (line : List Char)
    (rest : List (List Char)) (hhash : line.head? = some '#') :
    loadFileLoop parseLine d (line :: rest) =
      if pySplitTab ((pyRstrip line).drop 1) = columns.map String.toList
      then loadFileLoop parseLine d rest
      else Except.error (PyErr.formatError line) := by
  conv_lhs => rw [loadFileLoop]
  rw [if_pos hhash]

/-- The well-formed header line of a report file. -/
def reportHeaderLine : List Char :=
  ("#gene\tflag\treads\tcluster\tgene_len\tassembled\tpc_ident\tvar_type" ++
    "\tvar_effect\tnew_aa\tgene_start\tgene_end\tgene_nt\tscaffold" ++
    "\tscaff_len\tscaff_start\tscaff_end\tscaff_nt\tread_depth\talt_bases" ++
    "\tref_alt_depth").toList

/-- Witness for C10: the correct header line is skipped (no record parsed,
dictionary untouched), and a second malformed `'#'`-line then raises the
format error naming that very line. -/
theorem loadFileLoop_hash_line_witness :
    loadFileLoop (fun _ => Except.error PyErr.typeError) []
        [reportHeaderLine, "#bad".toList] =
      Except.error (PyErr.formatError "#bad".toList) := by
  rw [loadFileLoop_hash_line _ _ _ _ (by decide), if_pos (by decide),
    loadFileLoop_hash_line _ _ _ _ (by decide), if_neg (by decide)]

end AribaSummary
